import Mathlib

/-!
Verification development for the web_shell backend session logic
(`backend/src/ws_logic.rs`).

The embedding models:
* Unix path strings with Rust `std::path` semantics for `is_absolute`,
  `starts_with` (component-wise prefix) and `join`;
* the filesystem as an oracle (`FS`) supplying `canonicalize` and `is_dir`;
* subprocess execution as an oracle (`Exec`) returning captured
  status/stdout/stderr or a spawn error;
* the `shlex` crate's word splitter as a deterministic lexer;
* the command handlers and dispatch of `ws_logic.rs`, and the per-message
  step of the websocket session loop.
-/

namespace WebShell

/-- The single-quote character (ASCII 39). -/
def sq : Char := Char.ofNat 39

/-- The single-quote as a one-character string, used inside error messages. -/
def sqs : String := String.mk [sq]

/-- The backtick character (ASCII 96), escapable inside double quotes in `shlex`. -/
def btChar : Char := Char.ofNat 96

/-! ### Path model (Rust `std::path` on Unix, over raw strings) -/

/-- Rust `Path::is_absolute` on Unix: the string begins with a slash. -/
def pathIsAbsolute (s : String) : Bool :=
  match s.data with
  | [] => false
  | c :: _ => c = '/'

/-- Split a character list at every slash (Rust `str::split('/')`). -/
def splitSlashAux : List Char → List Char → List String
  | cur, [] => [String.mk cur.reverse]
  | cur, c :: rest =>
    if c = '/' then String.mk cur.reverse :: splitSlashAux [] rest
    else splitSlashAux (c :: cur) rest

/-- The normal components of a path, following Rust `Path::components`:
empty segments are dropped, and `.` segments are dropped except when they
lead a relative path. -/
def parseComps (s : String) : List String :=
  let parts := (splitSlashAux [] s.data).filter (fun c => c ≠ "")
  if pathIsAbsolute s then parts.filter (fun c => c ≠ ".")
  else
    match parts with
    | [] => []
    | p :: rest => p :: rest.filter (fun c => c ≠ ".")

/-- Full component list of a path, with a marker for the root directory,
mirroring the sequence produced by Rust `Path::components`. -/
def compList (s : String) : List String :=
  (if pathIsAbsolute s then ["/"] else []) ++ parseComps s

/-- Rust `Path::starts_with`: component-wise prefix test. -/
def pathStartsWith (s base : String) : Bool :=
  (compList base).isPrefixOf (compList s)

/-- Rust `Path::join` for the shapes used by the code: an absolute
right-hand side replaces the base, otherwise a separator is inserted
when needed and the components are concatenated. -/
def pathJoin (d t : String) : String :=
  if pathIsAbsolute t then t
  else if d = "" then t
  else
    match d.data.getLast? with
    | some '/' => d ++ t
    | _ => d ++ "/" ++ t

/-! ### Oracles for the filesystem and subprocess execution -/

/-- The filesystem as seen by the session: `canonicalize` resolves a path
(symlinks, `..`, `.`) to an absolute canonical path or fails; `isDir`
reports whether a path names a directory. -/
structure FS where
  canonicalize : String → Option String
  isDir : String → Bool

/-- The result of `Command::output().await`: either a captured `Output`
(success flag of the exit status, decoded stdout and stderr) or an I/O
error with its display text. -/
inductive SpawnResult where
  | output (success : Bool) (stdout stderr : String)
  | ioError (cause : String)

/-- The subprocess executor: given program name, argument list and an
optional working directory, produce a `SpawnResult`. -/
structure Exec where
  run : String → List String → Option String → SpawnResult

/-- The ambient environment of one session turn: filesystem, executor and
the current date formatted `%m-%d` (used by the `birthday` command). -/
structure Env where
  fs : FS
  ex : Exec
  today : String

/-! ### Constants and handlers from `ws_logic.rs` -/

/-- `SANDBOX_ROOT` from `ws_logic.rs`. -/
def SANDBOX_ROOT : String := "/home/heyeuuu/Workspace/secretes/happy_birthday"

/-- The character predicate of the filter closure inside `clean_output`.
The Rust closure ends in `|| true`, so it holds of every character. -/
def cleanKeep (c : Char) : Bool :=
  (decide (' ' ≤ c) && decide (c ≤ '~')) || c = '\n' || c = '\r' || true

/-- `clean_output` from `ws_logic.rs`: filter the characters of a string
through `cleanKeep`. -/
def clean_output (s : String) : String :=
  String.mk (s.data.filter cleanKeep)

/-- Output for a `shlex` parse failure in `process_command`. -/
def parseErrorMsg : String :=
  "Error: Invalid command format (unclosed quotes or invalid escapes).\r\n"

/-- Output for the blocked verbs `sudo`, `su`, `passwd`. -/
def permissionDeniedMsg : String :=
  "Error: Permission denied. This command is not allowed.\r\n"

/-- `cd` rejection for an absolute argument outside the sandbox (checked
before any filesystem access). -/
def cdOutsideArgMsg (p : String) : String :=
  "Error: Cannot access " ++ sqs ++ p ++ sqs ++ " outside the sandbox.\r\n"

/-- `cd` rejection when the canonicalized path escapes the sandbox. -/
def cdOutsideMsg : String :=
  "Error: Cannot access path outside the sandbox.\r\n"

/-- `cd` rejection when the canonical path is not a directory. -/
def cdNotDirMsg (p : String) : String :=
  "Error: " ++ sqs ++ p ++ sqs ++ " is not a directory or does not exist.\r\n"

/-- `cd` rejection when canonicalization fails. -/
def cdInvalidMsg (p : String) : String :=
  "Error: Path " ++ sqs ++ p ++ sqs ++ " is invalid or does not exist.\r\n"

/-- `ls` rejection when a canonicalized argument escapes the sandbox. -/
def lsOutsideMsg (p : String) : String :=
  "Error: Cannot access path " ++ sqs ++ p ++ sqs ++ " outside the sandbox.\r\n"

/-- `ls` rejection when canonicalization of an argument fails. -/
def lsInvalidMsg (p : String) : String :=
  "Error: Path " ++ sqs ++ p ++ sqs ++ " is invalid or does not exist.\r\n"

/-- Fixed output of `handle_whoami_command` for every failure. -/
def whoamiErrMsg : String := "Error getting user info.\r\n"

/-- `handle_help_command` from `ws_logic.rs`. -/
def handle_help_command : String :=
  "\r\nAvailable Safe Commands:\r\n" ++
  "\x1b[32m  help\x1b[0m        - Show this help message.\r\n" ++
  "\x1b[32m  echo <text>\x1b[0m - Echoes the text you provide.\r\n" ++
  "\x1b[32m  pwd\x1b[0m         - Prints working directory.\r\n" ++
  "\x1b[32m  cd <path>\x1b[0m   - Change current directory.\r\n" ++
  "\x1b[32m  ls\x1b[0m          - List directory contents.\r\n" ++
  "\x1b[32m  whoami\x1b[0m      - Print the user name.\r\n" ++
  "\x1b[32m  about\x1b[0m       - About this terminal.\r\n" ++
  "\r\nCustom Commands:\r\n" ++
  "\x1b[32m  birthday\x1b[0m    - Check if it" ++ sqs ++ "s your birthday.\r\n" ++
  "\x1b[32m  heyeuuu\x1b[0m     - A special greeting.\r\n" ++
  "\x1b[32m  creeper\x1b[0m     - A friendly sound.\r\n"

/-- `handle_echo_command`: arguments joined by a single space, CRLF-terminated. -/
def handle_echo_command (args : List String) : String :=
  String.intercalate " " args ++ "\r\n"

/-- The `about` output from the dispatch table in `process_command`. -/
def aboutMsg : String :=
  "This is a safe, sandboxed Rust Axum web terminal.\r\nIt only supports a limited set of commands to ensure safety.\r\n"

/-- The canonicalize-and-check stage of `handle_cd_command`: the Rust
`match resolved_path.canonicalize()` with the directory and sandbox
re-checks on the canonical result. -/
def cdCanon (fs : FS) (targetPathStr resolved : String) : String × Option String :=
  match fs.canonicalize resolved with
  | some canonical =>
    if fs.isDir canonical && pathStartsWith canonical SANDBOX_ROOT then
      ("", some canonical)
    else if !(pathStartsWith canonical SANDBOX_ROOT) then
      (cdOutsideMsg, none)
    else
      (cdNotDirMsg targetPathStr, none)
  | none => (cdInvalidMsg targetPathStr, none)

/-- `handle_cd_command` from `ws_logic.rs`: no argument resolves to the
sandbox root; an absolute argument outside the sandbox is rejected before
any filesystem access; otherwise the resolved path is canonicalized and
re-checked by `cdCanon`. Returns (output, optional new cwd). -/
def handle_cd_command (fs : FS) (args : List String) (current_dir : String) :
    String × Option String :=
  match args with
  | [] => ("", some SANDBOX_ROOT)
  | targetPathStr :: _ =>
    if pathIsAbsolute targetPathStr then
      if pathStartsWith targetPathStr SANDBOX_ROOT then
        cdCanon fs targetPathStr targetPathStr
      else
        (cdOutsideArgMsg targetPathStr, none)
    else
      cdCanon fs targetPathStr (pathJoin current_dir targetPathStr)

/-- `handle_pwd_command`: the current directory, CRLF-terminated. -/
def handle_pwd_command (current_dir : String) : String :=
  current_dir ++ "\r\n"

/-- Rust `arg.starts_with('-')`. -/
def strStartsDash (a : String) : Bool :=
  match a.data with
  | [] => false
  | c :: _ => c = '-'

/-- The argument-validation loop of `handle_ls_command`: flags (leading
dash) are collected unvalidated; every other argument is resolved against
the current directory, canonicalized, and checked against the sandbox
root; the first failure aborts with its error message. Returns the
collected (flags, canonical safe paths). -/
def lsValidate (fs : FS) (current_dir : String) :
    List String → Except String (List String × List String)
  | [] => Except.ok ([], [])
  | a :: rest =>
    if strStartsDash a then
      match lsValidate fs current_dir rest with
      | Except.ok (flags, safe) => Except.ok (a :: flags, safe)
      | Except.error e => Except.error e
    else
      match fs.canonicalize (if pathIsAbsolute a then a else pathJoin current_dir a) with
      | some canonical =>
        if pathStartsWith canonical SANDBOX_ROOT then
          match lsValidate fs current_dir rest with
          | Except.ok (flags, safe) => Except.ok (flags, canonical :: safe)
          | Except.error e => Except.error e
        else Except.error (lsOutsideMsg a)
      | none => Except.error (lsInvalidMsg a)

/-- `handle_ls_command` from `ws_logic.rs`: validate the arguments, then
run the external `ls` with the current directory as working directory;
non-zero exit surfaces stderr, a spawn error surfaces its cause. -/
def handle_ls_command (fs : FS) (ex : Exec) (args : List String) (current_dir : String) :
    String :=
  match lsValidate fs current_dir args with
  | Except.error e => e
  | Except.ok (flags, safe) =>
    match ex.run "ls" (flags ++ safe) (some current_dir) with
    | SpawnResult.output true stdout _ => stdout
    | SpawnResult.output false _ stderr => "Error executing ls: " ++ stderr ++ "\r\n"
    | SpawnResult.ioError e => "Failed to execute ls command: " ++ e ++ "\r\n"

/-- `handle_whoami_command` from `ws_logic.rs`: run the external `whoami`
with no arguments; any failure (non-zero exit or spawn error) collapses to
the fixed `whoamiErrMsg`. -/
def handle_whoami_command (ex : Exec) : String :=
  match ex.run "whoami" [] none with
  | SpawnResult.output true stdout _ => stdout
  | SpawnResult.output false _ _ => whoamiErrMsg
  | SpawnResult.ioError _ => whoamiErrMsg

/-- `handle_birthday_command`: compares the current `%m-%d` date with the
fixed birthday. -/
def handle_birthday_command (today : String) : String :=
  if today = "08-06" then "Happy Birthday, heyeuuu! 🎉🎂\r\n"
  else "It" ++ sqs ++ "s not my birthday yet. Is it yours?\r\n"

/-- `handle_heyeuuu_command`: greet the first argument, defaulting to the
author. -/
def handle_heyeuuu_command (args : List String) : String :=
  "Suki~~~Bless for " ++ (match args with | [] => "heyeuuu" | a :: _ => a) ++ "~~~\r\n"

/-- `handle_creeper_command`: fixed text. -/
def handle_creeper_command : String :=
  "Sss... Boom! (just kidding, I" ++ sqs ++ "m friendly) \r\n"

/-! ### The `shlex` crate word splitter -/

/-- The lexer mode of the `shlex` splitter: between words, inside a bare
word, inside single quotes, inside double quotes, inside a `#` comment,
or just after a backslash in the respective quoting context. -/
inductive LexMode where
  | outer | word | single | double | comment
  | wordEsc | singleEsc | doubleEsc

/-- Whitespace separating words in `shlex` (space, tab, newline). -/
def isShWs (c : Char) : Bool :=
  c = ' ' || c = '\t' || c = '\n'

/-- The `shlex` crate lexer as a mode-driven scan consuming one character
per step. `acc` is the current word accumulated in reverse; `words` are
the completed words in reverse. Returns `none` exactly when the Rust
iterator records `had_error` (unterminated quote, or a trailing
backslash). -/
def lexRun (mode : LexMode) (rem : List Char) (acc : List Char) (words : List String) :
    Option (List String) :=
  match rem with
  | [] =>
    match mode with
    | LexMode.outer => some words.reverse
    | LexMode.comment => some words.reverse
    | LexMode.word => some (String.mk acc.reverse :: words).reverse
    | _ => none
  | c :: rest =>
    match mode with
    | LexMode.outer =>
      if isShWs c then lexRun LexMode.outer rest [] words
      else if c = '#' then lexRun LexMode.comment rest [] words
      else if c = '"' then lexRun LexMode.double rest [] words
      else if c = sq then lexRun LexMode.single rest [] words
      else if c = '\\' then lexRun LexMode.wordEsc rest [] words
      else lexRun LexMode.word rest [c] words
    | LexMode.comment =>
      if c = '\n' then lexRun LexMode.outer rest [] words
      else lexRun LexMode.comment rest [] words
    | LexMode.word =>
      if isShWs c then lexRun LexMode.outer rest [] (String.mk acc.reverse :: words)
      else if c = '"' then lexRun LexMode.double rest acc words
      else if c = sq then lexRun LexMode.single rest acc words
      else if c = '\\' then lexRun LexMode.wordEsc rest acc words
      else lexRun LexMode.word rest (c :: acc) words
    | LexMode.wordEsc =>
      if c = '\n' then lexRun LexMode.word rest acc words
      else lexRun LexMode.word rest (c :: acc) words
    | LexMode.single =>
      if c = sq then lexRun LexMode.word rest acc words
      else if c = '\\' then lexRun LexMode.singleEsc rest acc words
      else lexRun LexMode.single rest (c :: acc) words
    | LexMode.singleEsc =>
      if c = sq || c = '\\' then lexRun LexMode.single rest (c :: acc) words
      else lexRun LexMode.single rest (c :: '\\' :: acc) words
    | LexMode.double =>
      if c = '"' then lexRun LexMode.word rest acc words
      else if c = '\\' then lexRun LexMode.doubleEsc rest acc words
      else lexRun LexMode.double rest (c :: acc) words
    | LexMode.doubleEsc =>
      if c = '$' || c = btChar || c = '"' || c = '\\' then
        lexRun LexMode.double rest (c :: acc) words
      else if c = '\n' then lexRun LexMode.double rest acc words
      else lexRun LexMode.double rest (c :: '\\' :: acc) words

/-- `shlex::split`: lex the whole line, `none` on malformed quoting or a
dangling escape. -/
def shlex_split (s : String) : Option (List String) :=
  lexRun LexMode.outer s.data [] []

/-- Rust `str::to_lowercase` restricted to the ASCII range, which is all
the dispatch table compares against. -/
def rustToLower (s : String) : String :=
  String.mk (s.data.map Char.toLower)

/-- Rust `str::trim` (whitespace stripped from both ends). -/
def rust_trim (s : String) : String :=
  String.mk (((s.data.dropWhile Char.isWhitespace).reverse.dropWhile Char.isWhitespace).reverse)

/-! ### Dispatch and the session step -/

/-- `CommandResult` from `ws_logic.rs`: the output text and the optional
new current directory. -/
structure CommandResult where
  output : String
  new_cwd : Option String
deriving DecidableEq

/-- `process_command` from `ws_logic.rs`: parse the line with `shlex`,
deny `sudo`/`su`/`passwd` before the dispatch table, then dispatch on the
lower-cased first word. -/
def process_command (env : Env) (command_str : String) (current_dir : String) :
    CommandResult :=
  match shlex_split command_str with
  | none => ⟨parseErrorMsg, none⟩
  | some parts =>
    match parts with
    | [] => ⟨"", none⟩
    | first :: args =>
      if rustToLower first = "sudo" ∨ rustToLower first = "su" ∨ rustToLower first = "passwd" then
        ⟨permissionDeniedMsg, none⟩
      else if rustToLower first = "help" then ⟨handle_help_command, none⟩
      else if rustToLower first = "echo" then ⟨handle_echo_command args, none⟩
      else if rustToLower first = "cd" then
        ⟨(handle_cd_command env.fs args current_dir).1,
         (handle_cd_command env.fs args current_dir).2⟩
      else if rustToLower first = "pwd" then ⟨handle_pwd_command current_dir, none⟩
      else if rustToLower first = "ls" then
        ⟨handle_ls_command env.fs env.ex args current_dir, none⟩
      else if rustToLower first = "whoami" then ⟨handle_whoami_command env.ex, none⟩
      else if rustToLower first = "about" then ⟨aboutMsg, none⟩
      else if rustToLower first = "birthday" then ⟨handle_birthday_command env.today, none⟩
      else if rustToLower first = "heyeuuu" then ⟨handle_heyeuuu_command args, none⟩
      else if rustToLower first = "creeper" then ⟨handle_creeper_command, none⟩
      else ⟨"Unknown command: " ++ command_str ++ "\r\n", none⟩

/-- `WebSocketResponse` from `ws_logic.rs`: optional output text and
optional cwd update. -/
structure WebSocketResponse where
  output : Option String
  cwd_update : Option String
deriving DecidableEq

/-- One inbound websocket message as seen by the session loop. -/
inductive InMsg where
  | text (s : String)
  | pong
  | close
  | other

/-- One iteration of the receive loop in `handle_socket`, on an ideal
transport: a text message is trimmed, processed, the cwd updated from
`new_cwd`, and exactly one response is sent with `output` omitted when
empty; pong and unsupported messages produce no response; a close message
ends the loop (`none`). Result: `none` to exit the loop, otherwise the new
current directory and the response sent (if any). -/
def sessionStep (env : Env) (current_dir : String) (m : InMsg) :
    Option (String × Option WebSocketResponse) :=
  match m with
  | InMsg.text t =>
    let r := process_command env (rust_trim t) current_dir
    some
      (match r.new_cwd with | some p => p | none => current_dir,
       some
         { output := if r.output = "" then none else some (clean_output r.output),
           cwd_update := r.new_cwd })
  | InMsg.pong => some (current_dir, none)
  | InMsg.close => none
  | InMsg.other => some (current_dir, none)

/-- The session's cwd after one `cd` turn: updated exactly when
`handle_cd_command` returns a new cwd (the mutation rule of the loop in
`handle_socket`). -/
def cdStep (fs : FS) (args : List String) (d : String) : String :=
  match (handle_cd_command fs args d).2 with
  | some p => p
  | none => d

/-- The session's cwd after a sequence of `cd` turns starting at `d`;
each step carries its own filesystem snapshot. -/
def runCds (steps : List (FS × List String)) (d : String) : String :=
  steps.foldl (fun cur st => cdStep st.1 st.2 cur) d

/-- A filesystem on which every canonicalization fails. -/
def fsNone : FS := ⟨fun _ => none, fun _ => false⟩

/-- A filesystem on which canonicalization is the identity and every path
is a directory. -/
def fsId : FS := ⟨fun p => some p, fun _ => true⟩

/-- An executor whose spawn always fails with a fixed cause. -/
def exErr : Exec := ⟨fun _ _ _ => SpawnResult.ioError "err"⟩

/-- A concrete environment for witnesses: failing filesystem, failing
executor, a non-birthday date. -/
def env0 : Env := ⟨fsNone, exErr, "01-01"⟩

/-- An executor whose spawn fails as when the binary is missing
(`io::ErrorKind::NotFound`). -/
def exNotFound : Exec :=
  ⟨fun _ _ _ => SpawnResult.ioError "No such file or directory (os error 2)"⟩

/-- An executor whose spawn fails with a different I/O error. -/
def exOtherIo : Exec :=
  ⟨fun _ _ _ => SpawnResult.ioError "Permission denied (os error 13)"⟩

/-- An executor whose program runs but exits non-zero. -/
def exNonZero : Exec :=
  ⟨fun _ _ _ => SpawnResult.output false "" "whoami: cannot find name"⟩

/-- The verbs handled by the dispatch of `process_command` (blocked verbs,
table entries, and the custom commands). -/
def dispatchVerbs : List String :=
  ["sudo", "su", "passwd", "help", "echo", "cd", "pwd", "ls", "whoami",
   "about", "birthday", "heyeuuu", "creeper"]

/-! ### Helper lemmas -/

/-- The filter predicate of `clean_output` holds of every character, so
the sanitizer is the identity. -/
theorem clean_output_eq (s : String) : clean_output s = s := by
  have h : ∀ c, cleanKeep c = true := by
    intro c
    simp [cleanKeep]
  unfold clean_output
  rw [List.filter_eq_self.mpr (fun a _ => h a)]

/-- Any new cwd produced by the canonicalize stage of `cd` starts with the
sandbox root: the success branch requires the check. -/
theorem cdCanon_snd_some (fs : FS) (t r p : String)
    (h : (cdCanon fs t r).2 = some p) : pathStartsWith p SANDBOX_ROOT = true := by
  unfold cdCanon at h
  cases hc : fs.canonicalize r with
  | none => rw [hc] at h; simp at h
  | some canonical =>
    rw [hc] at h
    dsimp only at h
    by_cases hd : (fs.isDir canonical && pathStartsWith canonical SANDBOX_ROOT) = true
    · rw [if_pos hd] at h
      simp at h
      rw [← h]
      exact (Bool.and_eq_true _ _ |>.mp hd).2
    · rw [if_neg hd] at h
      split at h <;> simp at h

/-- Any new cwd produced by `handle_cd_command` starts with the sandbox
root. -/
theorem handle_cd_snd_some (fs : FS) (args : List String) (d p : String)
    (h : (handle_cd_command fs args d).2 = some p) :
    pathStartsWith p SANDBOX_ROOT = true := by
  cases args with
  | nil =>
    simp [handle_cd_command] at h
    rw [← h]
    decide
  | cons a rest =>
    unfold handle_cd_command at h
    dsimp only at h
    by_cases habs : pathIsAbsolute a = true
    · rw [if_pos habs] at h
      by_cases hin : pathStartsWith a SANDBOX_ROOT = true
      · rw [if_pos hin] at h
        exact cdCanon_snd_some fs a a p h
      · rw [if_neg hin] at h
        simp at h
    · rw [if_neg habs] at h
      exact cdCanon_snd_some fs a (pathJoin d a) p h

/-- The sandbox invariant is preserved by any sequence of `cd` turns. -/
theorem runCds_inv (steps : List (FS × List String)) :
    ∀ d : String, pathStartsWith d SANDBOX_ROOT = true →
      pathStartsWith (runCds steps d) SANDBOX_ROOT = true := by
  induction steps with
  | nil => intro d h; exact h
  | cons st steps ih =>
    intro d h
    have hstep : pathStartsWith (cdStep st.1 st.2 d) SANDBOX_ROOT = true := by
      unfold cdStep
      cases hc : (handle_cd_command st.1 st.2 d).2 with
      | none => exact h
      | some p => exact handle_cd_snd_some st.1 st.2 d p hc
    exact ih (cdStep st.1 st.2 d) hstep

/-- A leading block of flag arguments passes through `lsValidate`, and a
failure of the remaining arguments propagates unchanged. -/
theorem lsValidate_flags_error (fs : FS) (d : String) (flags l : List String)
    (e : String) (hf : ∀ f ∈ flags, strStartsDash f = true)
    (h : lsValidate fs d l = Except.error e) :
    lsValidate fs d (flags ++ l) = Except.error e := by
  induction flags with
  | nil => simpa using h
  | cons f fl ih =>
    have hdash : strStartsDash f = true := hf f (List.mem_cons_self f fl)
    have ihe : lsValidate fs d (fl ++ l) = Except.error e :=
      ih (fun g hg => hf g (List.mem_cons_of_mem f hg))
    simp [lsValidate, hdash, ihe]

/-! ### Claim theorems -/

/-- C1: starting from the sandbox root, the session's current directory
after any sequence of `cd` turns (under arbitrary filesystem behavior at
each step) still starts with the sandbox root, and a rejected `cd`
(no new cwd) leaves the current directory unchanged. -/
theorem cd_sandbox_invariant :
    (∀ steps : List (FS × List String),
       pathStartsWith (runCds steps SANDBOX_ROOT) SANDBOX_ROOT = true)
    ∧ ∀ (fs : FS) (args : List String) (d : String),
        (handle_cd_command fs args d).2 = none → cdStep fs args d = d := by
  constructor
  · intro steps
    exact runCds_inv steps SANDBOX_ROOT (by decide)
  · intro fs args d h
    unfold cdStep
    rw [h]

/-- Witness for C1 at a concrete rejected `cd /etc` from the sandbox root. -/
theorem cd_sandbox_invariant_witness :
    pathStartsWith (runCds [(fsNone, ["/etc"])] SANDBOX_ROOT) SANDBOX_ROOT = true
    ∧ cdStep fsNone ["/etc"] SANDBOX_ROOT = SANDBOX_ROOT :=
  ⟨cd_sandbox_invariant.1 [(fsNone, ["/etc"])],
   cd_sandbox_invariant.2 fsNone ["/etc"] SANDBOX_ROOT (by decide)⟩

/-- C2: a `cd` whose argument is an absolute path not starting with the
sandbox root is rejected with the "outside the sandbox" message and no
new cwd, and the result is the same for every filesystem and every
current directory — no canonicalization (no filesystem access) happens
before the rejection. -/
theorem cd_absolute_outside_rejected (fs fs2 : FS) (a : String)
    (rest : List String) (d d2 : String)
    (habs : pathIsAbsolute a = true)
    (hout : pathStartsWith a SANDBOX_ROOT = false) :
    handle_cd_command fs (a :: rest) d = (cdOutsideArgMsg a, none)
    ∧ handle_cd_command fs (a :: rest) d = handle_cd_command fs2 (a :: rest) d2 := by
  constructor
  · simp [handle_cd_command, habs, hout]
  · simp [handle_cd_command, habs, hout]

/-- Witness for C2 at `cd /etc`. -/
theorem cd_absolute_outside_rejected_witness :
    handle_cd_command fsNone ["/etc"] SANDBOX_ROOT = (cdOutsideArgMsg "/etc", none)
    ∧ handle_cd_command fsNone ["/etc"] SANDBOX_ROOT
        = handle_cd_command fsId ["/etc"] "/tmp" :=
  cd_absolute_outside_rejected fsNone fsId "/etc" [] SANDBOX_ROOT "/tmp"
    (by decide) (by decide)

/-- C3 counterexample: the output sanitizer does not remove the raw
control byte 0x07 — its filter keeps every character — refuting the claim
that control bytes other than CR and LF are removed. -/
theorem clean_output_keeps_control_cex :
    clean_output (String.mk ['\x07', 'a']) = String.mk ['\x07', 'a']
    ∧ String.mk ['\x07', 'a'] ≠ String.mk ['a'] := by
  constructor
  · rfl
  · decide

/-- C3 (amended): `clean_output` returns its input unchanged — every
character is retained, in particular printable ASCII, newline and
carriage return. -/
theorem clean_output_retains_everything (s : String) : clean_output s = s :=
  clean_output_eq s

/-- C4 counterexample: a no-op turn (empty input: empty output, no
directory change) still sends a Response — with both fields absent —
rather than sending nothing. -/
theorem noop_turn_response_cex :
    sessionStep env0 SANDBOX_ROOT (InMsg.text "")
      = some (SANDBOX_ROOT, some ⟨none, none⟩)
    ∧ sessionStep env0 SANDBOX_ROOT (InMsg.text "")
      ≠ some (SANDBOX_ROOT, none) := by
  constructor
  · rfl
  · decide

/-- C4 (amended): on a turn whose processing produces empty output and no
directory change, the session sends exactly one Response with both fields
absent (it does not suppress the send). -/
theorem noop_turn_sends_empty_response (env : Env) (d t : String)
    (h : process_command env (rust_trim t) d = ⟨"", none⟩) :
    sessionStep env d (InMsg.text t) = some (d, some ⟨none, none⟩) := by
  simp [sessionStep, h]

/-- Witness for the amended C4 at the empty input line. -/
theorem noop_turn_sends_empty_response_witness :
    sessionStep env0 SANDBOX_ROOT (InMsg.text "")
      = some (SANDBOX_ROOT, some ⟨none, none⟩) :=
  noop_turn_sends_empty_response env0 SANDBOX_ROOT "" (by decide)

/-- C5: any line whose first word lower-cases to `sudo`, `su` or `passwd`
yields the fixed permission-denied output and no directory update, for
every environment (so before and independent of all other dispatch
logic). -/
theorem blocked_verbs_denied (env : Env) (d s w : String) (rest : List String)
    (hsplit : shlex_split s = some (w :: rest))
    (hverb : rustToLower w = "sudo" ∨ rustToLower w = "su" ∨ rustToLower w = "passwd") :
    process_command env s d = ⟨permissionDeniedMsg, none⟩ := by
  simp only [process_command, hsplit]
  rw [if_pos hverb]

/-- Witness for C5 at `sudo rm -rf /`. -/
theorem blocked_verbs_denied_witness :
    process_command env0 "sudo rm -rf /" SANDBOX_ROOT = ⟨permissionDeniedMsg, none⟩ :=
  blocked_verbs_denied env0 SANDBOX_ROOT "sudo rm -rf /" "sudo" ["rm", "-rf", "/"]
    (by decide) (Or.inl (by decide))

/-- C6 counterexample: the verb `birthday` is not in the spec's dispatch
table, yet dispatch does not return "Unknown command: birthday" — it runs
the custom birthday handler. -/
theorem unknown_verb_cex :
    (process_command env0 "birthday" SANDBOX_ROOT).output
      = "It" ++ sqs ++ "s not my birthday yet. Is it yours?\r\n"
    ∧ (process_command env0 "birthday" SANDBOX_ROOT).output
      ≠ "Unknown command: birthday\r\n" := by
  constructor
  · rfl
  · decide

/-- C6 (amended): any line whose first word lower-cases to a verb outside
the full dispatch set (the spec's table plus the custom verbs `birthday`,
`heyeuuu`, `creeper`) yields "Unknown command: " followed by the original
line, with no directory update. -/
theorem unknown_verb_output (env : Env) (d s w : String) (rest : List String)
    (hsplit : shlex_split s = some (w :: rest))
    (hverb : rustToLower w ∉ dispatchVerbs) :
    process_command env s d = ⟨"Unknown command: " ++ s ++ "\r\n", none⟩ := by
  simp only [dispatchVerbs, List.mem_cons, List.mem_singleton, not_or] at hverb
  obtain ⟨h1, h2, h3, h4, h5, h6, h7, h8, h9, h10, h11, h12, h13⟩ := hverb
  simp only [process_command, hsplit]
  simp [h1, h2, h3, h4, h5, h6, h7, h8, h9, h10, h11, h12, h13]

/-- Witness for the amended C6 at `rm -rf`. -/
theorem unknown_verb_output_witness :
    process_command env0 "rm -rf" SANDBOX_ROOT
      = ⟨"Unknown command: " ++ "rm -rf" ++ "\r\n", none⟩ :=
  unknown_verb_output env0 SANDBOX_ROOT "rm -rf" "rm" ["-rf"]
    (by decide) (by decide)

/-- C7 counterexample: for `whoami`, the missing-binary spawn error
produces the same output as any other spawn error and the same output as
a non-zero exit — there is no distinct "command not found" message. -/
theorem whoami_failure_collapse_cex :
    handle_whoami_command exNotFound = handle_whoami_command exOtherIo
    ∧ handle_whoami_command exNotFound = handle_whoami_command exNonZero
    ∧ handle_whoami_command exNotFound = whoamiErrMsg :=
  ⟨rfl, rfl, rfl⟩

/-- C7 (amended): every spawn failure of `whoami` (missing binary
included) and every non-zero exit yield the one fixed message; every
spawn failure of `ls` yields the generic "Failed to execute" message with
the underlying cause, and a non-zero exit yields the "Error executing ls"
message carrying stderr. -/
theorem executor_failure_messages (fs : FS) (d cause stdout stderr : String) :
    handle_whoami_command ⟨fun _ _ _ => SpawnResult.ioError cause⟩ = whoamiErrMsg
    ∧ handle_whoami_command ⟨fun _ _ _ => SpawnResult.output false stdout stderr⟩
        = whoamiErrMsg
    ∧ handle_ls_command fs ⟨fun _ _ _ => SpawnResult.ioError cause⟩ [] d
        = "Failed to execute ls command: " ++ cause ++ "\r\n"
    ∧ handle_ls_command fs ⟨fun _ _ _ => SpawnResult.output false stdout stderr⟩ [] d
        = "Error executing ls: " ++ stderr ++ "\r\n" :=
  ⟨rfl, rfl, rfl, rfl⟩

/-- C8: when `shlex` fails on the trimmed line (unterminated quoting or a
dangling escape), the turn sends the one-line parse-error output, leaves
the directory unchanged, and the session continues (the step yields a
next state rather than closing). -/
theorem parse_error_recovered (env : Env) (d s : String)
    (h : shlex_split (rust_trim s) = none) :
    sessionStep env d (InMsg.text s) = some (d, some ⟨some parseErrorMsg, none⟩) := by
  simp only [sessionStep, process_command, h]
  have hne : parseErrorMsg ≠ "" := by decide
  simp [hne, clean_output_eq]

/-- Witness for C8 at the unterminated quote input. -/
theorem parse_error_recovered_witness :
    sessionStep env0 SANDBOX_ROOT (InMsg.text "echo \"abc")
      = some (SANDBOX_ROOT, some ⟨some parseErrorMsg, none⟩) :=
  parse_error_recovered env0 SANDBOX_ROOT "echo \"abc" (by decide)

/-- C9: `pwd` is idempotent and side-effect-free: a `pwd` turn at any
current directory sends the directory (CRLF-terminated) with no cwd
update and leaves the state unchanged, so a second `pwd` turn — under any
environment — sends the identical output again. -/
theorem pwd_idempotent (env env2 : Env) (d : String) :
    sessionStep env d (InMsg.text "pwd")
      = some (d, some ⟨some (d ++ "\r\n"), none⟩)
    ∧ sessionStep env2 d (InMsg.text "pwd")
      = some (d, some ⟨some (d ++ "\r\n"), none⟩) := by
  have hne : d ++ "\r\n" ≠ "" := by
    cases d with
    | mk l =>
      intro hcontra
      have h2 : l ++ ['\r', '\n'] = ([] : List Char) := congrArg String.data hcontra
      simp at h2
  have hp : ∀ e : Env, process_command e (rust_trim "pwd") d = ⟨d ++ "\r\n", none⟩ :=
    fun e => rfl
  constructor
  · simp only [sessionStep, hp]
    simp [hne, clean_output_eq]
  · simp only [sessionStep, hp]
    simp [hne, clean_output_eq]

/-- C10: for `ls`, an absolute non-flag argument (after any block of
flags) is canonicalized before the sandbox check, so the error output
distinguishes a nonexistent path ("invalid or does not exist") from an
existing one that escapes the sandbox ("outside the sandbox");
validation stops at that argument — the remaining arguments and the
executor are never consulted. -/
theorem ls_absolute_arg_validation (fs : FS) (ex : Exec) (flags : List String)
    (a : String) (rest : List String) (d c : String)
    (hf : ∀ f ∈ flags, strStartsDash f = true)
    (hnf : strStartsDash a = false)
    (habs : pathIsAbsolute a = true) :
    (fs.canonicalize a = none →
       handle_ls_command fs ex (flags ++ a :: rest) d = lsInvalidMsg a)
    ∧ (fs.canonicalize a = some c → pathStartsWith c SANDBOX_ROOT = false →
       handle_ls_command fs ex (flags ++ a :: rest) d = lsOutsideMsg a) := by
  constructor
  · intro hcanon
    have hv : lsValidate fs d (a :: rest) = Except.error (lsInvalidMsg a) := by
      simp [lsValidate, hnf, habs, hcanon]
    have hv2 := lsValidate_flags_error fs d flags (a :: rest) (lsInvalidMsg a) hf hv
    unfold handle_ls_command
    rw [hv2]
  · intro hcanon hout
    have hv : lsValidate fs d (a :: rest) = Except.error (lsOutsideMsg a) := by
      simp [lsValidate, hnf, habs, hcanon, hout]
    have hv2 := lsValidate_flags_error fs d flags (a :: rest) (lsOutsideMsg a) hf hv
    unfold handle_ls_command
    rw [hv2]

/-- Witness for C10 at `ls -l /etc x` under a filesystem where `/etc`
does not canonicalize, and under one where it canonicalizes to itself
(outside the sandbox). -/
theorem ls_absolute_arg_validation_witness :
    handle_ls_command fsNone exErr (["-l"] ++ "/etc" :: ["x"]) SANDBOX_ROOT
      = lsInvalidMsg "/etc"
    ∧ handle_ls_command fsId exErr (["-l"] ++ "/etc" :: ["x"]) SANDBOX_ROOT
      = lsOutsideMsg "/etc" :=
  ⟨(ls_absolute_arg_validation fsNone exErr ["-l"] "/etc" ["x"] SANDBOX_ROOT "/etc"
      (by decide) (by decide) (by decide)).1 rfl,
   (ls_absolute_arg_validation fsId exErr ["-l"] "/etc" ["x"] SANDBOX_ROOT "/etc"
      (by decide) (by decide) (by decide)).2 rfl (by decide)⟩

end WebShell
